import Mathlib

/-!
Verification of the bridge intercept data plane against its specification.

The development shallowly embeds the relevant program fragments:

- `pkg/plumbing/connid.go`: the canonical connection-ID formatter and the
  `TunnelConn` logical tunnel connection (channel-fed reads with a leftover
  buffer, close-once semantics).
- the `tunnel` package `Conn` (second tunnel-connection implementation:
  channel-fed reads without a leftover buffer, atomic closed flag).
- `pkg/netutil` non-Linux `OriginalDest` and the `commands` package
  non-Linux `getOriginalDst`.
- the dispatcher service `address.ts` connection-ID construction.
- the WebSocket relay registration and pairing logic (`WSServer`).
- `updateResolvConf` and `restoreResolvConf` from the intercept command.
- the DNS pattern matcher semantics of spec section 4.3.

Byte slices are modelled as `List Nat`; Go channels as lists of queued
values plus a closed flag; `sync.Once` as a boolean; blocking as an
`Option`/dedicated result constructor; the nondeterministic choice a Go
`select` makes when several cases are ready as an explicit `pick : Bool`
argument.
-/

/-- A byte slice travelling through the tunnel. -/
abbrev Chunk := List Nat

/-- Frames emitted on the tunnel stream by a logical connection: data frames
carry the connection id, payload and both addresses; close frames carry the
id alone. -/
inductive Frame where
  | data (id : String) (bytes : Chunk) (src dst : String)
  | close (id : String)
deriving DecidableEq, Repr

/-- Result of one Read call: bytes returned together with the successor
state, end of file, or a blocked receive. -/
inductive ReadResult (σ : Type) where
  | bytes (bs : Chunk) (s : σ)
  | eof (s : σ)
  | blocked
deriving DecidableEq, Repr

/-- State of a `tunnel.Conn` (the tunnel package logical connection): the
`readBuf` channel holds queued chunks and has the capacity given to `make`;
`bufClosed` records that the channel itself was closed; `closed` is the
atomic flag; `onceDone` records that the `closeOnce` body already ran;
`sent` accumulates the frames handed to the client send functions. -/
structure Conn where
  id : String
  source : String
  dest : String
  readBuf : List Chunk
  readBufCap : Nat
  bufClosed : Bool
  closed : Bool
  onceDone : Bool
  sent : List Frame
deriving DecidableEq, Repr

/-- `newConn` from the tunnel package: fresh connection with
`make(chan []byte, 100)`. -/
def newConn (id source dest : String) : Conn :=
  { id := id, source := source, dest := dest, readBuf := [],
    readBufCap := 100, bufClosed := false, closed := false,
    onceDone := false, sent := [] }

/-- `Conn.Read`: if the closed flag is set, return EOF; otherwise receive
from `readBuf` (head chunk if any is queued, EOF once the channel is closed
and drained, block otherwise) and copy at most `n` bytes out of the chunk.
The part of the chunk beyond the destination buffer is not retained
anywhere: the code has no leftover field. -/
def Conn.Read (n : Nat) (c : Conn) : ReadResult Conn :=
  if c.closed then ReadResult.eof c
  else
    match c.readBuf with
    | d :: rest => ReadResult.bytes (d.take n) { c with readBuf := rest }
    | [] => if c.bufClosed then ReadResult.eof c else ReadResult.blocked

/-- `Conn.Write`: fails with `io.ErrClosedPipe` once closed, otherwise sends
one data frame carrying the source and destination addresses.
Modelled from the spec: `Client.sendDataWithAddresses` lives in the tunnel
package client, which is not under src/; per spec sections 4.5 and 6 it
emits a data frame with `id`, payload and both addresses set. -/
def Conn.Write (b : Chunk) (c : Conn) : Except String (Nat × Conn) :=
  if c.closed then Except.error "io: read/write on closed pipe"
  else Except.ok (b.length,
    { c with sent := c.sent ++ [Frame.data c.id b c.source c.dest] })

/-- Closing a Go channel panics when the channel is already closed; `none`
models that panic. -/
def closeChan (alreadyClosed : Bool) : Option Unit :=
  if alreadyClosed then none else some ()

/-- `Conn.Close`: the `closeOnce` body sets the closed flag, sends a close
frame for the connection id and closes `readBuf`; later calls skip the body.
The Go method always returns `nil`, modelled as the `none` error component.
`none` overall models a double-close panic of `readBuf` (unreachable from
`newConn`). Modelled from the spec: `Client.sendClose` is in the tunnel
package client, not under src/; per spec section 4.4 closing a side sends a
`close(id)` frame. -/
def Conn.Close (c : Conn) : Option (Conn × Option String) :=
  if c.onceDone then some (c, none)
  else
    match closeChan c.bufClosed with
    | none => none
    | some _ => some
        ({ c with closed := true, onceDone := true, bufClosed := true,
                  sent := c.sent ++ [Frame.close c.id] }, none)

/-- Iterated `Conn.Close` calls, threading the state and propagating a
panic. -/
def closeIter : Nat → Conn → Option Conn
  | 0, c => some c
  | k + 1, c =>
    match Conn.Close c with
    | none => none
    | some (c2, _) => closeIter k c2

/-- The state a fresh `Conn` reaches after its first Close: flags set and
exactly one close frame for its id sent. -/
def closedConn (id src dst : String) : Conn :=
  { newConn id src dst with
      closed := true, onceDone := true, bufClosed := true,
      sent := [Frame.close id] }

/-- State of a `plumbing.TunnelConn`: `readCh` is the buffered channel fed
by the central read loop (capacity fixed by `NewTunnelConn`), `closed`
records that `closeCh` has been closed, `buf` is the leftover of a partial
Read, `onceDone` the consumed `closeOnce`, and `sent` the frames emitted
through the caller-provided callbacks. -/
structure TunnelConn where
  readCh : List Chunk
  readChCap : Nat
  closed : Bool
  buf : Chunk
  onceDone : Bool
  sent : List Frame
deriving DecidableEq, Repr

/-- `NewTunnelConn`: fresh state with `make(chan []byte, 64)` and an open
`closeCh`. -/
def NewTunnelConn : TunnelConn :=
  { readCh := [], readChCap := 64, closed := false, buf := [],
    onceDone := false, sent := [] }

/-- `TunnelConn.Read`: leftover bytes from a previous partial Read are
served first; otherwise a `select` receives from `readCh` or observes the
closed `closeCh`. When both cases are ready (data queued and connection
closed) the Go runtime picks one pseudo-randomly; `pick` makes that choice
explicit (`true` receives the data). A partial copy stores the remainder of
the chunk in `buf`. -/
def TunnelConn.Read (pick : Bool) (n : Nat) (t : TunnelConn) :
    ReadResult TunnelConn :=
  if 0 < t.buf.length then
    ReadResult.bytes (t.buf.take n) { t with buf := t.buf.drop n }
  else
    match t.readCh with
    | d :: rest =>
      if t.closed && !pick then ReadResult.eof t
      else ReadResult.bytes (d.take n)
        { t with readCh := rest, buf := d.drop n }
    | [] => if t.closed then ReadResult.eof t else ReadResult.blocked

/-- `TunnelConn.Deliver`: a `select` between sending the chunk into `readCh`
and observing the closed `closeCh`. Sending is ready while the channel has
free capacity; after close both cases can be ready and `pick` resolves the
race (`true` enqueues). `none` models a blocked Deliver (channel full and
connection still open). -/
def TunnelConn.Deliver (pick : Bool) (d : Chunk) (t : TunnelConn) :
    Option TunnelConn :=
  if t.readCh.length < t.readChCap then
    if t.closed then
      some (if pick then { t with readCh := t.readCh ++ [d] } else t)
    else some { t with readCh := t.readCh ++ [d] }
  else
    if t.closed then some t else none

/-- `TunnelConn.SignalClose`: closes `closeCh` through `closeOnce`. -/
def TunnelConn.SignalClose (t : TunnelConn) : TunnelConn :=
  if t.onceDone then t else { t with closed := true, onceDone := true }

/-- Modelled from the spec: the `OnClose` callback installed by the plumbing
tunnel wiring (the tunnel map and its send helpers are not under src/).
Per spec section 4.4, closing either side sends a `close(id)` frame for the
connection. -/
def onCloseSpec (id : String) (frames : List Frame) : List Frame :=
  frames ++ [Frame.close id]

/-- `TunnelConn.Close`: closes `closeCh` through `closeOnce`, then invokes
the `OnClose` callback (on every call) and returns `nil`. -/
def TunnelConn.Close (id : String) (t : TunnelConn) :
    TunnelConn × Option String :=
  let t1 := if t.onceDone then t else { t with closed := true, onceDone := true }
  ({ t1 with sent := onCloseSpec id t1.sent }, none)

/-- Bytes delivered to the connection but not yet returned by Read: the
leftover buffer followed by the queued chunks in order. -/
def pendingTC (t : TunnelConn) : Chunk :=
  t.buf ++ t.readCh.flatten

/-- One interaction of the central read loop or the consumer with a
`TunnelConn`. -/
inductive TCOp where
  | deliver (d : Chunk)
  | readOp (n : Nat)
deriving DecidableEq, Repr

/-- All bytes handed to Deliver over a sequence of interactions, in
order. -/
def deliveredOf : List TCOp → Chunk
  | [] => []
  | TCOp.deliver d :: ops => d ++ deliveredOf ops
  | TCOp.readOp _ :: ops => deliveredOf ops

/-- Runs a sequence of Deliver/Read interactions on a `TunnelConn`,
collecting the bytes each Read returns; `none` when an interaction blocks
or does not yield bytes. -/
def runOps : List TCOp → TunnelConn → Option (Chunk × TunnelConn)
  | [], t => some ([], t)
  | TCOp.deliver d :: ops, t =>
    match TunnelConn.Deliver false d t with
    | some t2 => runOps ops t2
    | none => none
  | TCOp.readOp n :: ops, t =>
    match TunnelConn.Read false n t with
    | ReadResult.bytes bs t2 =>
      match runOps ops t2 with
      | some (out, tf) => some (bs ++ out, tf)
      | none => none
    | ReadResult.eof _ => none
    | ReadResult.blocked => none

/-- A Go `net.Conn` remote address as seen by the non-Linux
original-destination helpers: the type switch distinguishes TCP, UDP and
any other address type. -/
inductive GoAddr where
  | tcp (addr : String)
  | udp (addr : String)
  | unix (addr : String)
deriving DecidableEq, Repr

/-- `netutil.OriginalDest` (non-Linux build): returns the remote address
string for TCP and UDP connections and an error for any other address type
(the Go error message interpolates the concrete type). -/
def OriginalDest (remote : GoAddr) : Except String String :=
  match remote with
  | GoAddr.tcp a => Except.ok a
  | GoAddr.udp a => Except.ok a
  | GoAddr.unix _ => Except.error "unsupported address type"

/-- `commands.getOriginalDst` (non-Linux build): unconditionally an
error. -/
def getOriginalDst (_ : GoAddr) : Except String String :=
  Except.error "SO_ORIGINAL_DST not supported on this platform"

/-- `plumbing.ConnectionID`: `fmt.Sprintf` with format
`%s:%d->%s:%d`. -/
def ConnectionID (sourceIP : String) (sourcePort : Nat)
    (destIP : String) (destPort : Nat) : String :=
  sourceIP ++ ":" ++ Nat.repr sourcePort ++ "->" ++ destIP ++ ":" ++
    Nat.repr destPort

/-- The connection id built by the dispatcher service
(`getConnectionAddresses` in address.ts): the template literal joins the
two `ip:port` pairs with a single hyphen. -/
def dispatcherConnectionId (sourceIP : String) (sourcePort : Nat)
    (destIP : String) (destPort : Nat) : String :=
  sourceIP ++ ":" ++ Nat.repr sourcePort ++ "-" ++ destIP ++ ":" ++
    Nat.repr destPort

/-- Relay state of the WebSocket server: the pending-tunnel map from
connection key to the waiting client connection (client connections are
abstracted to numeric handles); insertion order is kept to model the map
operations used. -/
structure RelayState where
  pending : List (String × Nat)
deriving DecidableEq, Repr

/-- Outcome of `handleClientRegistration`: either the registration lacked a
function URL, or the relay POSTed the pairing request (connect URL, sandbox
URL, connection key) to the dispatcher and parked the client. -/
inductive ClientRegResult where
  | missingFunctionUrl
  | posted (connectURL : String) (sandboxUrl : String) (connectionKey : String)
deriving DecidableEq, Repr

/-- `WSServer.handleClientRegistration` up to the wait: rejects an empty
function URL, otherwise stores the pending tunnel under the freshly
generated connection key and notifies the dispatcher by POSTing the sandbox
URL and connection key to the function URL with `/__tunnel/connect`
appended (`notifyDispatcher`). The random key generation is abstracted into
the `key` argument. -/
def handleClientRegistration (functionUrl sandboxURL key : String)
    (clientId : Nat) (st : RelayState) : ClientRegResult × RelayState :=
  if functionUrl = "" then (ClientRegResult.missingFunctionUrl, st)
  else
    (ClientRegResult.posted (functionUrl ++ "/__tunnel/connect") sandboxURL key,
     { pending := st.pending ++ [(key, clientId)] })

/-- Outcome of `handleServerRegistration`. -/
inductive ServerRegResult where
  | missingKey
  | noPendingClient
  | paired (clientId : Nat)
deriving DecidableEq, Repr

/-- `LoadAndDelete` on the pending-tunnel map: returns the value stored
under the key, removing the binding, or `none`. -/
def loadAndDelete (key : String) :
    List (String × Nat) → Option (Nat × List (String × Nat))
  | [] => none
  | (k, v) :: rest =>
    if k = key then some (v, rest)
    else
      match loadAndDelete key rest with
      | none => none
      | some (v2, rest2) => some (v2, (k, v) :: rest2)

/-- `WSServer.handleServerRegistration`: rejects an empty connection key,
pairs the server with the waiting client found by `LoadAndDelete`, and
reports a missing pending client otherwise. -/
def handleServerRegistration (key : String) (st : RelayState) :
    ServerRegResult × RelayState :=
  if key = "" then (ServerRegResult.missingKey, st)
  else
    match loadAndDelete key st.pending with
    | none => (ServerRegResult.noPendingClient, st)
    | some (cid, rest) => (ServerRegResult.paired cid, { pending := rest })

/-- `NewWSServer` pairing-timeout default: a zero configured timeout becomes
60 seconds. -/
def effectivePairingTimeout (cfg : Nat) : Nat :=
  if cfg = 0 then 60 else cfg

/-- Deadline of the pairing context created by `handleClientRegistration`:
registration time plus the effective pairing timeout. -/
def pairingDeadline (now cfg : Nat) : Nat :=
  now + effectivePairingTimeout cfg

/-- Result of `updateResolvConf`: the resulting file content, the bytes
returned to the caller, and whether the call failed. The file system is a
single `Option String` (`none` when /etc/resolv.conf is missing); writes
are assumed to succeed. -/
structure ResolvUpdateResult where
  fs : Option String
  returned : Option String
  failed : Bool
deriving DecidableEq, Repr

/-- `updateResolvConf`: reads the file (failing when it is missing), writes
`nameserver <ip>` plus a newline followed by the original content, and
returns the original bytes. -/
def updateResolvConf (nameserverIP : String) (fs : Option String) :
    ResolvUpdateResult :=
  match fs with
  | none => { fs := none, returned := none, failed := true }
  | some original =>
    { fs := some ("nameserver " ++ nameserverIP ++ "\n" ++ original),
      returned := some original, failed := false }

/-- `restoreResolvConf`: a `nil` original is a no-op, otherwise the original
bytes are written back. -/
def restoreResolvConf (original : Option String) (fs : Option String) :
    Option String :=
  match original with
  | none => fs
  | some o => some o

/-- Modelled from the spec: the single-wildcard row of the section 4.3
pattern table, as implemented over the lowercased trailing-dot-stripped
hostname (pkg/dns is not under src/): the hostname must end in a dot
followed by the suffix and the part in front must be one nonempty label
containing no dot. -/
def matchSingleLabel (suffix h : List Char) : Bool :=
  ('.' :: suffix).isSuffixOf h
    && !(h.take (h.length - (suffix.length + 1))).isEmpty
    && !(h.take (h.length - (suffix.length + 1))).contains '.'

/-- Modelled from the spec: the DNS pattern matcher of section 4.3 (pkg/dns
is not under src/). A pattern is `*` (matches everything), `**.suffix`
(any hostname ending in `.suffix`), `*.suffix` (exactly one extra label in
front of the suffix), or a literal FQDN (exact match). -/
def matchesPattern (p h : List Char) : Bool :=
  if p = ['*'] then true
  else if p.take 3 = ['*', '*', '.'] then ('.' :: p.drop 3).isSuffixOf h
  else if p.take 2 = ['*', '.'] then matchSingleLabel (p.drop 2) h
  else p == h

/-- Modelled from the spec: the ordered pattern list is evaluated first
match wins, so the matcher applies the first pattern that matches. -/
def matchFirst (patterns : List (List Char)) (h : List Char) :
    Option (List Char) :=
  patterns.find? (fun p => matchesPattern p h)

/-! Theorems. -/

/-- C2: on a non-Linux platform, `netutil.OriginalDest` returns the remote
address unchanged for every TCP or UDP connection; however the `commands`
package recovery function `getOriginalDst` always fails there (amended
claim; the original claim asserted that it, too, returns the remote
address). -/
theorem C2_thm (a : GoAddr) (s : String)
    (h : a = GoAddr.tcp s ∨ a = GoAddr.udp s) :
    OriginalDest a = Except.ok s ∧
    getOriginalDst a =
      Except.error "SO_ORIGINAL_DST not supported on this platform" := by
  rcases h with rfl | rfl <;> exact ⟨rfl, rfl⟩

/-- C2 witness: a concrete TCP connection. -/
theorem C2_witness :
    OriginalDest (GoAddr.tcp "10.0.0.5:443") = Except.ok "10.0.0.5:443" ∧
    getOriginalDst (GoAddr.tcp "10.0.0.5:443") =
      Except.error "SO_ORIGINAL_DST not supported on this platform" :=
  C2_thm (GoAddr.tcp "10.0.0.5:443") "10.0.0.5:443" (Or.inl rfl)

/-- C2 counterexample: `commands.getOriginalDst` on a concrete non-Linux
TCP connection fails instead of returning the remote address. -/
theorem C2_counterexample :
    getOriginalDst (GoAddr.tcp "10.0.0.5:443") ≠ Except.ok "10.0.0.5:443" ∧
    getOriginalDst (GoAddr.tcp "10.0.0.5:443") =
      Except.error "SO_ORIGINAL_DST not supported on this platform" ∧
    OriginalDest (GoAddr.tcp "10.0.0.5:443") = Except.ok "10.0.0.5:443" := by
  refine ⟨?_, rfl, rfl⟩
  simp [getOriginalDst]

/-- C3: the Go `plumbing.ConnectionID` produces the canonical
`srcIP:srcPort->dstIP:dstPort` form with the two-character arrow, but the
dispatcher connection id joins the two halves with a single hyphen, so the
two constructions never agree (amended claim; the original claim asserted
the dispatcher also produces the arrow form). -/
theorem C3_thm (sip dip : String) (sp dp : Nat) :
    ConnectionID sip sp dip dp =
      sip ++ ":" ++ Nat.repr sp ++ "->" ++ dip ++ ":" ++ Nat.repr dp ∧
    dispatcherConnectionId sip sp dip dp =
      sip ++ ":" ++ Nat.repr sp ++ "-" ++ dip ++ ":" ++ Nat.repr dp ∧
    dispatcherConnectionId sip sp dip dp ≠ ConnectionID sip sp dip dp := by
  refine ⟨rfl, rfl, ?_⟩
  intro hcontra
  have hlen := congrArg String.length hcontra
  have e1 : ("-" : String).length = 1 := rfl
  have e2 : ("->" : String).length = 2 := rfl
  have e3 : (":" : String).length = 1 := rfl
  simp only [dispatcherConnectionId, ConnectionID, String.length_append,
    e1, e2, e3] at hlen
  omega

/-- C3 witness: concrete addresses. -/
theorem C3_witness :
    ConnectionID "10.0.0.1" 80 "10.0.0.2" 443 =
      "10.0.0.1" ++ ":" ++ Nat.repr 80 ++ "->" ++ "10.0.0.2" ++ ":" ++
        Nat.repr 443 ∧
    dispatcherConnectionId "10.0.0.1" 80 "10.0.0.2" 443 =
      "10.0.0.1" ++ ":" ++ Nat.repr 80 ++ "-" ++ "10.0.0.2" ++ ":" ++
        Nat.repr 443 ∧
    dispatcherConnectionId "10.0.0.1" 80 "10.0.0.2" 443 ≠
      ConnectionID "10.0.0.1" 80 "10.0.0.2" 443 :=
  C3_thm "10.0.0.1" "10.0.0.2" 80 443

/-- C3 counterexample: at concrete addresses the dispatcher produces the
hyphen-joined string, not the canonical arrow form. -/
theorem C3_counterexample :
    dispatcherConnectionId "1.2.3.4" 5 "6.7.8.9" 10 = "1.2.3.4:5-6.7.8.9:10" ∧
    dispatcherConnectionId "1.2.3.4" 5 "6.7.8.9" 10 ≠ "1.2.3.4:5->6.7.8.9:10" ∧
    ConnectionID "1.2.3.4" 5 "6.7.8.9" 10 = "1.2.3.4:5->6.7.8.9:10" := by
  refine ⟨?_, ?_, ?_⟩ <;> decide

/-- C4: the plumbing `TunnelConn` inbound channel has capacity 64, but the
tunnel package `Conn` is created with capacity 100 (amended claim; the
original claim asserted 64 for both implementations). -/
theorem C4_thm (id src dst : String) :
    (newConn id src dst).readBufCap = 100 ∧ NewTunnelConn.readChCap = 64 :=
  ⟨rfl, rfl⟩

/-- C4 witness: concrete constructor arguments. -/
theorem C4_witness :
    (newConn "a" "b" "c").readBufCap = 100 ∧ NewTunnelConn.readChCap = 64 :=
  C4_thm "a" "b" "c"

/-- C4 counterexample: a freshly created tunnel package `Conn` has inbound
capacity 100, not 64. -/
theorem C4_counterexample :
    (newConn "a" "b" "c").readBufCap = 100 ∧
    (newConn "a" "b" "c").readBufCap ≠ 64 ∧
    NewTunnelConn.readChCap = 64 := by
  refine ⟨rfl, ?_, rfl⟩ ; decide

/-- C5: Close on a not-yet-closed tunnel package `Conn` succeeds, returns
nil and sends a close frame for the connection id; Close on a plumbing
`TunnelConn` leaves a close frame for its id among the emitted frames. -/
theorem C5_thm (c : Conn) (id2 : String) (t : TunnelConn)
    (h1 : c.onceDone = false) (h2 : c.bufClosed = false) :
    (∃ c2, Conn.Close c = some (c2, none) ∧ Frame.close c.id ∈ c2.sent) ∧
    Frame.close id2 ∈ (TunnelConn.Close id2 t).1.sent := by
  constructor
  · have hcl : Conn.Close c =
        some ({ c with closed := true, onceDone := true, bufClosed := true,
                       sent := c.sent ++ [Frame.close c.id] }, none) := by
      simp [Conn.Close, h1, h2, closeChan]
    exact ⟨_, hcl, by simp⟩
  · simp [TunnelConn.Close, onCloseSpec]

/-- C5 witness: a fresh connection and a fresh `TunnelConn`. -/
theorem C5_witness :
    (∃ c2, Conn.Close (newConn "i" "s" "d") = some (c2, none) ∧
        Frame.close (newConn "i" "s" "d").id ∈ c2.sent) ∧
    Frame.close "x" ∈ (TunnelConn.Close "x" NewTunnelConn).1.sent :=
  C5_thm (newConn "i" "s" "d") "x" NewTunnelConn rfl rfl

/-- C7: a client registration with a nonempty function URL parks the client
under its key and POSTs the sandbox URL and connection key to the function
URL with the tunnel-connect path appended; a later server registration
whose key matches the parked entry is paired with that client; the pairing
timeout defaults to 60 seconds when unconfigured. -/
theorem C7_thm (fu sb key : String) (cid : Nat) (st : RelayState)
    (rest : List (String × Nat)) (now : Nat)
    (hfu : fu ≠ "") (hkey : key ≠ "") :
    handleClientRegistration fu sb key cid st =
      (ClientRegResult.posted (fu ++ "/__tunnel/connect") sb key,
       { pending := st.pending ++ [(key, cid)] }) ∧
    handleServerRegistration key { pending := (key, cid) :: rest } =
      (ServerRegResult.paired cid, { pending := rest }) ∧
    effectivePairingTimeout 0 = 60 ∧
    pairingDeadline now 0 = now + 60 := by
  refine ⟨?_, ?_, rfl, rfl⟩
  · simp [handleClientRegistration, hfu]
  · simp [handleServerRegistration, hkey, loadAndDelete]

/-- C7 witness: a concrete registration pair. -/
theorem C7_witness :
    handleClientRegistration "https://fn.example" "https://sb.example" "k0" 7
        { pending := [] } =
      (ClientRegResult.posted ("https://fn.example" ++ "/__tunnel/connect")
        "https://sb.example" "k0",
       { pending := [("k0", 7)] }) ∧
    handleServerRegistration "k0" { pending := ("k0", 7) :: [] } =
      (ServerRegResult.paired 7, { pending := [] }) ∧
    effectivePairingTimeout 0 = 60 ∧
    pairingDeadline 5 0 = 5 + 60 :=
  C7_thm "https://fn.example" "https://sb.example" "k0" 7 { pending := [] }
    [] 5 (by decide) (by decide)

/-- C8: rewriting the resolver file prepends exactly the line
`nameserver 127.0.0.1` in front of the unchanged original content and
returns the original bytes; restoring with those bytes brings the file back
to exactly the original content. -/
theorem C8_thm (orig : String) :
    updateResolvConf "127.0.0.1" (some orig) =
      { fs := some ("nameserver 127.0.0.1\n" ++ orig),
        returned := some orig, failed := false } ∧
    restoreResolvConf (updateResolvConf "127.0.0.1" (some orig)).returned
        (updateResolvConf "127.0.0.1" (some orig)).fs = some orig :=
  ⟨rfl, rfl⟩

/-- C8 witness: a concrete resolver file. -/
theorem C8_witness :
    updateResolvConf "127.0.0.1" (some "nameserver 8.8.8.8\n") =
      { fs := some ("nameserver 127.0.0.1\n" ++ "nameserver 8.8.8.8\n"),
        returned := some "nameserver 8.8.8.8\n", failed := false } ∧
    restoreResolvConf
        (updateResolvConf "127.0.0.1" (some "nameserver 8.8.8.8\n")).returned
        (updateResolvConf "127.0.0.1" (some "nameserver 8.8.8.8\n")).fs =
      some "nameserver 8.8.8.8\n" :=
  C8_thm "nameserver 8.8.8.8\n"

/-- Delivering to an open `TunnelConn` appends the chunk to the pending
bytes and keeps the connection open. -/
theorem deliver_pending (d : Chunk) (t t2 : TunnelConn)
    (hco : t.closed = false) (h : TunnelConn.Deliver false d t = some t2) :
    pendingTC t2 = pendingTC t ++ d ∧ t2.closed = false := by
  by_cases hcap : t.readCh.length < t.readChCap
  · simp [TunnelConn.Deliver, hcap, hco] at h
    subst h
    refine ⟨?_, by simp [hco]⟩
    simp [pendingTC, List.flatten_append, List.append_assoc]
  · simp [TunnelConn.Deliver, hcap, hco] at h

/-- A Read that returns bytes from an open `TunnelConn` takes them from the
front of the pending bytes and keeps the connection open. -/
theorem read_pending (pick : Bool) (n : Nat) (t t2 : TunnelConn) (bs : Chunk)
    (hco : t.closed = false)
    (h : TunnelConn.Read pick n t = ReadResult.bytes bs t2) :
    bs ++ pendingTC t2 = pendingTC t ∧ t2.closed = false := by
  by_cases hbuf : 0 < t.buf.length
  · simp [TunnelConn.Read, hbuf] at h
    obtain ⟨hbs, ht2⟩ := h
    subst hbs; subst ht2
    refine ⟨?_, by simp [hco]⟩
    simp [pendingTC, ← List.append_assoc, List.take_append_drop]
  · have hb : t.buf = [] := by
      have : t.buf.length = 0 := by omega
      exact List.length_eq_zero.mp this
    cases hch : t.readCh with
    | nil => simp [TunnelConn.Read, hbuf, hch, hco] at h
    | cons dd rest =>
      simp [TunnelConn.Read, hbuf, hch, hco] at h
      obtain ⟨hbs, ht2⟩ := h
      subst hbs; subst ht2
      refine ⟨?_, by simp [hco]⟩
      simp [pendingTC, hb, hch, ← List.append_assoc, List.take_append_drop]

/-- C1 (amended): over any sequence of Deliver/Read interactions on an open
plumbing `TunnelConn`, no bytes are lost or reordered: the bytes returned
by the Reads followed by the bytes still pending equal the initially
pending bytes followed by all delivered bytes. The tunnel package `Conn`
does not have this property: a Read whose buffer is smaller than the chunk
discards the remainder (see the counterexample). -/
theorem C1_thm (ops : List TCOp) (t : TunnelConn) (out : Chunk)
    (tf : TunnelConn) (hco : t.closed = false)
    (h : runOps ops t = some (out, tf)) :
    out ++ pendingTC tf = pendingTC t ++ deliveredOf ops := by
  induction ops generalizing t out tf with
  | nil =>
    simp [runOps] at h
    obtain ⟨rfl, rfl⟩ := h
    simp [deliveredOf]
  | cons op ops ih =>
    cases op with
    | deliver d =>
      cases hdel : TunnelConn.Deliver false d t with
      | none => simp [runOps, hdel] at h
      | some t2 =>
        obtain ⟨hp, hc2⟩ := deliver_pending d t t2 hco hdel
        have ih2 := ih t2 out tf hc2 (by simpa [runOps, hdel] using h)
        calc out ++ pendingTC tf = pendingTC t2 ++ deliveredOf ops := ih2
          _ = (pendingTC t ++ d) ++ deliveredOf ops := by rw [hp]
          _ = pendingTC t ++ deliveredOf (TCOp.deliver d :: ops) := by
              simp [deliveredOf, List.append_assoc]
    | readOp n =>
      cases hrd : TunnelConn.Read false n t with
      | blocked => simp [runOps, hrd] at h
      | eof t2 => simp [runOps, hrd] at h
      | bytes bs t2 =>
        obtain ⟨hp, hc2⟩ := read_pending false n t t2 bs hco hrd
        cases hrun : runOps ops t2 with
        | none => simp [runOps, hrd, hrun] at h
        | some pr =>
          obtain ⟨o2, tf2⟩ := pr
          simp only [runOps, hrd, hrun] at h
          have h5 := Option.some.inj h
          rw [Prod.ext_iff] at h5
          obtain ⟨h6, h7⟩ := h5
          simp only at h6 h7
          subst h6; subst h7
          have ih2 := ih t2 o2 tf2 hc2 hrun
          calc (bs ++ o2) ++ pendingTC tf2
              = bs ++ (o2 ++ pendingTC tf2) := by rw [List.append_assoc]
            _ = bs ++ (pendingTC t2 ++ deliveredOf ops) := by rw [ih2]
            _ = (bs ++ pendingTC t2) ++ deliveredOf ops := by
                rw [List.append_assoc]
            _ = pendingTC t ++ deliveredOf ops := by rw [hp]
            _ = pendingTC t ++ deliveredOf (TCOp.readOp n :: ops) := by
                simp [deliveredOf]

/-- C1 witness: a chunk of two bytes read through a one-byte buffer and then
a larger buffer arrives intact and in order on a `TunnelConn`. -/
theorem C1_witness :
    runOps [TCOp.deliver [1, 2], TCOp.readOp 1, TCOp.readOp 5] NewTunnelConn =
      some ([1, 2], NewTunnelConn) ∧
    [1, 2] ++ pendingTC NewTunnelConn =
      pendingTC NewTunnelConn ++
        deliveredOf [TCOp.deliver [1, 2], TCOp.readOp 1, TCOp.readOp 5] :=
  ⟨by decide, C1_thm [TCOp.deliver [1, 2], TCOp.readOp 1, TCOp.readOp 5]
    NewTunnelConn [1, 2] NewTunnelConn (by decide) (by decide)⟩

/-- C1 counterexample: on the tunnel package `Conn`, reading a delivered
two-byte chunk with a one-byte destination buffer returns one byte and
irrecoverably drops the second: the successor state holds no pending bytes
and the next Read blocks instead of returning the remainder. -/
theorem C1_counterexample :
    Conn.Read 1 { newConn "i" "s" "d" with readBuf := [[1, 2]] } =
      ReadResult.bytes [1] (newConn "i" "s" "d") ∧
    (newConn "i" "s" "d").readBuf = [] ∧
    Conn.Read 1 (newConn "i" "s" "d") = ReadResult.blocked := by
  exact ⟨by decide, rfl, by decide⟩

/-- C6 (amended): after close the tunnel package `Conn` answers every Read
with EOF and zero bytes; on the plumbing `TunnelConn` a Deliver after close
never blocks, and Read returns EOF once the leftover buffer and the channel
are drained — but bytes still buffered at close time can be returned (see
the counterexample). -/
theorem C6_thm (n m : Nat) (pick pick2 : Bool) (d : Chunk) (c : Conn)
    (t u : TunnelConn) (hc : c.closed = true) (ht : t.closed = true)
    (hu : u.closed = true) (hubuf : u.buf = []) (huch : u.readCh = []) :
    Conn.Read n c = ReadResult.eof c ∧
    TunnelConn.Deliver pick d t ≠ none ∧
    TunnelConn.Read pick2 m u = ReadResult.eof u := by
  refine ⟨?_, ?_, ?_⟩
  · simp [Conn.Read, hc]
  · by_cases hcap : t.readCh.length < t.readChCap <;>
      simp [TunnelConn.Deliver, ht, hcap]
  · simp [TunnelConn.Read, hubuf, huch, hu]

/-- C6 witness: concrete closed connections with drained buffers. -/
theorem C6_witness :
    Conn.Read 1 { newConn "i" "s" "d" with closed := true } =
      ReadResult.eof { newConn "i" "s" "d" with closed := true } ∧
    TunnelConn.Deliver false [3] { NewTunnelConn with closed := true } ≠
      none ∧
    TunnelConn.Read false 1 { NewTunnelConn with closed := true } =
      ReadResult.eof { NewTunnelConn with closed := true } :=
  C6_thm 1 1 false false [3] { newConn "i" "s" "d" with closed := true }
    { NewTunnelConn with closed := true } { NewTunnelConn with closed := true }
    rfl rfl rfl rfl rfl

/-- C6 counterexample: a `TunnelConn` closed while one byte lingers in the
leftover buffer still hands that byte to a Read after close instead of EOF,
and a Deliver after close may enqueue its chunk rather than discard it when
the select picks the channel send. -/
theorem C6_counterexample :
    TunnelConn.Read false 1
        { NewTunnelConn with closed := true, onceDone := true, buf := [7] } =
      ReadResult.bytes [7]
        { NewTunnelConn with closed := true, onceDone := true } ∧
    TunnelConn.Deliver true [9]
        { NewTunnelConn with closed := true, onceDone := true } =
      some { NewTunnelConn with
               readCh := [[9]], closed := true, onceDone := true } := by
  exact ⟨by decide, by decide⟩

/-- Once the close-once flag of a `Conn` is consumed, further Close calls
leave the state untouched and keep succeeding. -/
theorem closeIter_stable (k : Nat) (c : Conn) (h : c.onceDone = true) :
    closeIter k c = some c := by
  induction k with
  | zero => rfl
  | succ k ih => simp [closeIter, Conn.Close, h, ih]

/-- C10: closing a tunnel package `Conn` is idempotent: a successful Close
returns nil and a repeated Close is a no-op that also returns nil; any
number of Close calls on a fresh connection never panic on the read-buffer
channel and leave exactly one close frame sent. -/
theorem C10_thm (c : Conn) (id src dst : String) (k : Nat) (hk : 1 ≤ k) :
    (∀ c2 e, Conn.Close c = some (c2, e) →
      e = none ∧ Conn.Close c2 = some (c2, none)) ∧
    closeIter k (newConn id src dst) = some (closedConn id src dst) ∧
    (closedConn id src dst).sent.count (Frame.close id) = 1 := by
  refine ⟨?_, ?_, ?_⟩
  · intro c2 e hce
    by_cases hod : c.onceDone
    · simp [Conn.Close, hod] at hce
      obtain ⟨h1, h2⟩ := hce
      subst h1
      refine ⟨h2.symm, ?_⟩
      simp [Conn.Close, hod]
    · by_cases hb : c.bufClosed
      · simp [Conn.Close, hod, hb, closeChan] at hce
      · simp [Conn.Close, hod, hb, closeChan] at hce
        obtain ⟨h1, h2⟩ := hce
        subst h1
        refine ⟨h2.symm, ?_⟩
        simp [Conn.Close]
  · obtain ⟨j, rfl⟩ : ∃ j, k = j + 1 := ⟨k - 1, by omega⟩
    have hstep : Conn.Close (newConn id src dst) =
        some (closedConn id src dst, none) := rfl
    simp only [closeIter, hstep]
    exact closeIter_stable j (closedConn id src dst) rfl
  · simp [closedConn, List.count_cons]

/-- C10 witness: three Close calls on a concrete fresh connection. -/
theorem C10_witness :
    (∀ c2 e, Conn.Close (newConn "q" "s" "d") = some (c2, e) →
      e = none ∧ Conn.Close c2 = some (c2, none)) ∧
    closeIter 3 (newConn "q" "s" "d") = some (closedConn "q" "s" "d") ∧
    (closedConn "q" "s" "d").sent.count (Frame.close "q") = 1 :=
  C10_thm (newConn "q" "s" "d") "q" "s" "d" 3 (by decide)

/-- Characterization of the single-wildcard matcher: it accepts exactly the
hostnames made of one nonempty dot-free label, a dot and the suffix. -/
theorem matchSingleLabel_iff (suffix h : List Char) :
    matchSingleLabel suffix h = true ↔
      ∃ lab, lab ≠ [] ∧ ('.') ∉ lab ∧ lab ++ ('.' :: suffix) = h := by
  unfold matchSingleLabel
  constructor
  · intro hm
    rw [Bool.and_eq_true, Bool.and_eq_true] at hm
    obtain ⟨⟨hsuf, hne⟩, hnd⟩ := hm
    rw [List.isSuffixOf_iff_suffix] at hsuf
    obtain ⟨t, ht⟩ := hsuf
    have hlen : h.length - (suffix.length + 1) = t.length := by
      rw [← ht]; simp [List.length_append]
    rw [hlen, ← ht, List.take_left] at hne hnd
    refine ⟨t, ?_, ?_, ht⟩
    · intro h0; rw [h0] at hne; simp at hne
    · intro hmem
      simp [List.contains] at hnd
      exact hnd hmem
  · rintro ⟨lab, hne, hnd, rfl⟩
    have hlen : (lab ++ '.' :: suffix).length - (suffix.length + 1) =
        lab.length := by
      simp [List.length_append]
    rw [Bool.and_eq_true, Bool.and_eq_true]
    refine ⟨⟨?_, ?_⟩, ?_⟩
    · rw [List.isSuffixOf_iff_suffix]; exact ⟨lab, rfl⟩
    · rw [hlen, List.take_left]
      simp [List.isEmpty_iff, hne]
    · rw [hlen, List.take_left]
      simp [List.contains, hnd]

/-- The universal pattern accepts every hostname. -/
theorem matchesPattern_star (h : List Char) : matchesPattern ['*'] h = true :=
  rfl

/-- The double-wildcard pattern accepts exactly the hostnames ending in a
dot followed by the suffix, at any depth. -/
theorem matchesPattern_doubleStar (suffix h : List Char) :
    matchesPattern ('*' :: '*' :: '.' :: suffix) h = true ↔
      ∃ pre, pre ++ ('.' :: suffix) = h := by
  show ('.' :: suffix).isSuffixOf h = true ↔ _
  rw [List.isSuffixOf_iff_suffix]
  exact Iff.rfl

/-- The single-wildcard pattern accepts exactly the hostnames with one
additional nonempty dot-free label in front of the suffix. -/
theorem matchesPattern_singleStar (suffix h : List Char) :
    matchesPattern ('*' :: '.' :: suffix) h = true ↔
      ∃ lab, lab ≠ [] ∧ ('.') ∉ lab ∧ lab ++ ('.' :: suffix) = h := by
  show matchSingleLabel suffix h = true ↔ _
  exact matchSingleLabel_iff suffix h

/-- A pattern that is not one of the three glob forms matches only its
exact FQDN. -/
theorem matchesPattern_literal (p h : List Char) (h1 : p ≠ ['*'])
    (h2 : p.take 3 ≠ ['*', '*', '.']) (h3 : p.take 2 ≠ ['*', '.']) :
    matchesPattern p h = true ↔ p = h := by
  unfold matchesPattern
  rw [if_neg h1, if_neg h2, if_neg h3]
  exact beq_iff_eq

/-- First-match semantics: a successful `matchFirst` splits the pattern
list into untried-and-failing patterns, the matching pattern, and the rest
that is never consulted. -/
theorem matchFirst_spec (ps : List (List Char)) (h p : List Char)
    (hf : matchFirst ps h = some p) :
    ∃ l1 l2, ps = l1 ++ p :: l2 ∧ matchesPattern p h = true ∧
      ∀ q ∈ l1, matchesPattern q h = false := by
  induction ps with
  | nil => simp [matchFirst] at hf
  | cons a as ih =>
    cases ha : matchesPattern a h with
    | true =>
      have : matchFirst (a :: as) h = some a := by
        simp [matchFirst, List.find?_cons_of_pos, ha]
      rw [this] at hf
      obtain rfl := Option.some.inj hf
      exact ⟨[], as, rfl, ha, by simp⟩
    | false =>
      have hstep : matchFirst (a :: as) h = matchFirst as h := by
        simp [matchFirst]
        exact List.find?_cons_of_neg _ (by simp [ha])
      rw [hstep] at hf
      obtain ⟨l1, l2, hps, hm, hall⟩ := ih hf
      refine ⟨a :: l1, l2, by simp [hps], hm, ?_⟩
      intro q hq
      rcases List.mem_cons.mp hq with rfl | hq2
      · exact ha
      · exact hall q hq2

/-- C9: the DNS pattern matcher applies at most one pattern (the first
matching one), and the match predicate satisfies the section 4.3 table:
`*` matches every hostname, `**.suffix` matches any hostname ending in
`.suffix` at any depth, `*.suffix` matches exactly one extra label in
front of the suffix, and any other pattern matches only its exact FQDN. -/
theorem C9_thm (ps : List (List Char)) (hn hp hd hs hl : List Char)
    (p suffix suffix2 lit : List Char)
    (hf : matchFirst ps hn = some p)
    (hlit1 : lit ≠ ['*']) (hlit2 : lit.take 3 ≠ ['*', '*', '.'])
    (hlit3 : lit.take 2 ≠ ['*', '.']) :
    (∃ l1 l2, ps = l1 ++ p :: l2 ∧ matchesPattern p hn = true ∧
      ∀ q ∈ l1, matchesPattern q hn = false) ∧
    matchesPattern ['*'] hp = true ∧
    (matchesPattern ('*' :: '*' :: '.' :: suffix) hd = true ↔
      ∃ pre, pre ++ ('.' :: suffix) = hd) ∧
    (matchesPattern ('*' :: '.' :: suffix2) hs = true ↔
      ∃ lab, lab ≠ [] ∧ ('.') ∉ lab ∧ lab ++ ('.' :: suffix2) = hs) ∧
    (matchesPattern lit hl = true ↔ lit = hl) :=
  ⟨matchFirst_spec ps hn p hf, matchesPattern_star hp,
   matchesPattern_doubleStar suffix hd, matchesPattern_singleStar suffix2 hs,
   matchesPattern_literal lit hl hlit1 hlit2 hlit3⟩

/-- C9 witness: concrete pattern list and hostnames exercising every row of
the table. -/
theorem C9_witness :
    (∃ l1 l2, [['a'], ['*']] = l1 ++ ['*'] :: l2 ∧
      matchesPattern ['*'] ['b'] = true ∧
      ∀ q ∈ l1, matchesPattern q ['b'] = false) ∧
    matchesPattern ['*'] ['x'] = true ∧
    (matchesPattern ('*' :: '*' :: '.' :: ['x']) ['a', '.', 'b', '.', 'x'] =
        true ↔
      ∃ pre, pre ++ ('.' :: ['x']) = ['a', '.', 'b', '.', 'x']) ∧
    (matchesPattern ('*' :: '.' :: ['x']) ['a', '.', 'x'] = true ↔
      ∃ lab, lab ≠ [] ∧ ('.') ∉ lab ∧
        lab ++ ('.' :: ['x']) = ['a', '.', 'x']) ∧
    (matchesPattern ['a', '.', 'x'] ['a', '.', 'x'] = true ↔
      ['a', '.', 'x'] = ['a', '.', 'x']) :=
  C9_thm [['a'], ['*']] ['b'] ['x'] ['a', '.', 'b', '.', 'x'] ['a', '.', 'x']
    ['a', '.', 'x'] ['*'] ['x'] ['x'] ['a', '.', 'x'] (by decide) (by decide)
    (by decide) (by decide)
